import Mathlib

/-!
# fake115uploader: retry loop, configuration checks, queue construction and
# per-target bookkeeping of `main.go`

A shallow embedding of the parts of `main.go` that decide how often an HTTP
request is attempted (`doRequest`), which part counts `initialize` accepts,
how `main` builds the upload queue, and what `uploadFile` records for a target.

Conventions:
* Go's `uint` and `int` are `w`-bit machine words (`w` is 32 or 64); unsigned
  arithmetic is taken modulo `2 ^ w`, and the conversion `int(x)` reinterprets
  the word in two's complement.
* A Go `error` that may be `nil` is an `Option`; `none` is `nil`.
* A run-time panic is the `Except.error` result of a function.
* Functions of the repository that are called by the modelled code but whose
  bodies are not part of `main.go` (`fastUploadFile`, `ossUploadFile`,
  `multipartUploadFile`, `resumeUpload`) and the operating-system and library
  calls (`httpClient.Do`, `os.Stat`, `filepath.Join`, `filepath.Base`,
  `filepath.WalkDir`) are parameters of the model.
-/

namespace Fake115

/-! ## Machine words -/

/-- Unsigned addition of two `uint` values of `w` bits: the sum wraps around
modulo `2 ^ w`. -/
def uintAdd (w a b : Nat) : Nat := (a + b) % 2 ^ w

/-- The conversion `int(x)` of a `w`-bit `uint`: the same word, read in two's
complement. -/
def uintToInt (w x : Nat) : Int :=
  if x % 2 ^ w < 2 ^ (w - 1) then ((x % 2 ^ w : Nat) : Int)
  else ((x % 2 ^ w : Nat) : Int) - ((2 ^ w : Nat) : Int)

/-! ## `doRequest` (main.go, lines 207-218) -/

/-- The part of `*http.Response` that a retry policy could look at. -/
structure Response where
  StatusCode : Int
  Body : String
  deriving DecidableEq, Repr

/-- What one call of `httpClient.Do(req)` returns: the pair `(resp, err)`. -/
structure Attempt (Err : Type) where
  resp : Option Response
  err : Option Err
  deriving DecidableEq, Repr

/-- The error built by `fmt.Errorf("http请求出现错误：%w", err)`; `err` is the
operand, which is `nil` when no attempt was made. -/
structure RequestError (Err : Type) where
  msg : String
  err : Option Err
  deriving DecidableEq, Repr

/-- The result of `doRequest` together with what it did: the attempts issued, in
order, and the errors logged. -/
structure RequestResult (Err : Type) where
  resp : Option Response
  err : Option (RequestError Err)
  attempts : List (Attempt Err)
  logged : List Err
  deriving DecidableEq, Repr

/-- The body of the `for` loop of `doRequest` with `remaining` iterations left.
`Do n` is what the `n`-th call of `httpClient.Do` returns (counting from 0),
`issued` are the calls made so far and `err` is the current value of the named
result `err`. -/
def doRequestLoop {Err : Type} (Do : Nat → Attempt Err) (verbose : Bool) :
    Nat → List (Attempt Err) → Option Err → List Err → RequestResult Err
  | 0, issued, err, logged =>
      { resp := none, err := some ⟨"http请求出现错误", err⟩, attempts := issued, logged := logged }
  | remaining + 1, issued, _, logged =>
      let a := Do issued.length
      match a.err with
      | none => { resp := a.resp, err := none, attempts := issued ++ [a], logged := logged }
      | some e =>
          doRequestLoop Do verbose remaining (issued ++ [a]) (some e)
            (if verbose then logged ++ [e] else logged)

/-- The number of iterations of `for i := 0; i < int(config.HTTPRetry+1); i++`
when no iteration returns: the bound when it is positive, none otherwise. -/
def doRequestBound (w HTTPRetry : Nat) : Nat :=
  (uintToInt w (uintAdd w HTTPRetry 1)).toNat

/-- The function `doRequest` for a `w`-bit `uint` field `config.HTTPRetry`. -/
def doRequest {Err : Type} (w HTTPRetry : Nat) (Do : Nat → Attempt Err) (verbose : Bool) :
    RequestResult Err :=
  doRequestLoop Do verbose (doRequestBound w HTTPRetry) [] none []

/-! ## The part-count checks of the function initialize (main.go, lines 402-413) -/

/-- The constant `maxParts`. -/
def maxParts : Nat := 10000

/-- The fields of the struct `uploadConfig`. -/
structure uploadConfig where
  Cookies : String
  CID : Nat
  ResultDir : String
  HTTPRetry : Nat
  OSSProxy : String
  PartsNum : Nat
  deriving DecidableEq, Repr

/-- A call of `os.Exit(code)`, with the line logged just before it. -/
structure Exit where
  code : Int
  msg : String
  deriving DecidableEq, Repr

/-- Lines 402-413 of the function initialize: the three `if` statements on the
part count. `partsNum` is the value of the flag `-parts-num` (0 when absent),
`multipartUpload` the flag `-m`, and `config` the configuration as read from
the configuration file. The result is the configuration after the block, or the
exit taken. The block is reached when none of the earlier exits (no flag at
all, `-h`, two upload modes at once) is taken. -/
def partsNumChecks (partsNum : Nat) (multipartUpload : Bool) (config : uploadConfig) :
    Except Exit uploadConfig :=
  if partsNum ≠ 0 ∧ ¬ multipartUpload then
    .error ⟨1, "-parts-num参数只支持断点续传模式"⟩
  else
    let config := if partsNum ≠ 0 then { config with PartsNum := partsNum } else config
    if config.PartsNum > maxParts then
      .error ⟨1, "分片数量不能大于10000"⟩
    else
      .ok config

/-! ## Files, results and errors -/

/-- The struct `fileInfo`: a file to upload. -/
structure fileInfo where
  Path : String
  ParentID : Nat
  deriving DecidableEq, Repr

/-- The struct `resultData`: the global `result`. -/
structure resultData where
  Success : List String
  Failed : List String
  Saved : List String
  deriving DecidableEq, Repr

/-- A non-nil Go `error` as far as `errors.Is(err, errStopUpload)` can tell
errors apart: the value `errStopUpload` itself, an error that wraps another one
(`fmt.Errorf` with `%w`), or any other error. -/
inductive GoError where
  | stopUpload
  | wrap (msg : String) (inner : GoError)
  | other (msg : String)
  deriving DecidableEq, Repr

/-- The test `errors.Is(err, errStopUpload)`: the chain of wrapped errors of
`err` contains `errStopUpload`. -/
def errorsIsStopUpload : GoError → Bool
  | .stopUpload => true
  | .wrap _ inner => errorsIsStopUpload inner
  | .other _ => false

/-- The `fs.FileInfo` returned by a successful `os.Stat`, as far as the code
looks at it. -/
structure FileStat where
  IsDir : Bool
  deriving DecidableEq, Repr

/-- The error of a failed `os.Stat`; `notExist` is the value of
`os.IsNotExist(err)`. -/
structure StatError where
  notExist : Bool
  msg : String
  deriving DecidableEq, Repr

/-- The calls that the modelled code makes and that the model records. -/
inductive Call (Token : Type) where
  | stat (path : String)
  | fastUploadFile (file : fileInfo)
  | ossUploadFile (token : Token) (path : String)
  | multipartUploadFile (token : Token) (path : String)
  | resumeUpload (path : String)
  deriving DecidableEq, Repr

/-- What the modelled code calls and does not define. `os.Stat` returns either
a file info and a nil error, or a nil file info and an error. The four upload
functions of the repository return their Go results and may write the global
`result`, so each takes the current `result` and returns the new one next to
its results. `walkDir file cid files cidMap` is the call of `filepath.WalkDir`
at lines 556-609 with its callback: it returns the error of the walk and the
values of `files` and `cidMap` after it. -/
structure Env (Token : Type) where
  stat : String → Except StatError FileStat
  join : String → String → String
  base : String → String
  fastUploadFile : fileInfo → resultData → (Token × Option GoError) × resultData
  ossUploadFile : Token → String → resultData → Option GoError × resultData
  multipartUploadFile : Token → String → resultData → Option GoError × resultData
  resumeUpload : String → resultData → Option GoError × resultData
  walkDir : String → Nat → List fileInfo → List (String × Nat) →
    Option GoError × List fileInfo × List (String × Nat)

/-- The flags read by `main` and `uploadFile`. -/
structure Flags where
  fastUpload : Bool
  upload : Bool
  multipartUpload : Bool
  saveDir : String
  recursive : Bool
  deriving DecidableEq, Repr

/-! ## Building the upload queue (main.go, lines 546-624) -/

/-- The local variables `files` and `cidMap` of `main`, and the lines logged. -/
structure QueueState where
  files : List fileInfo
  cidMap : List (String × Nat)
  log : List String
  deriving DecidableEq, Repr

/-- One iteration of `for _, file := range flag.Args()`. The result is the state
after the iteration, or, as an error, the state at the moment of a run-time
panic. After a failed `os.Stat` the variable `info` is nil, and the method call
`info.IsDir()` on it panics. -/
def queueStep {Token : Type} (env : Env Token) (flags : Flags) (CID : Nat)
    (st : QueueState) (file : String) : Except QueueState QueueState :=
  let r := env.stat file
  let st :=
    match r with
    | .error e => { st with log := st.log ++ ["获取 " ++ file ++ " 的信息出现错误：" ++ e.msg] }
    | .ok _ => st
  match r with
  | .error _ => .error st
  | .ok info =>
      if info.IsDir then
        if flags.recursive then
          let w := env.walkDir file CID st.files st.cidMap
          let st := { st with files := w.2.1, cidMap := w.2.2 }
          match w.1 with
          | some _ => .ok { st with log := st.log ++ ["上传文件夹 " ++ file ++ " 出现错误"] }
          | none => .ok st
        else
          .ok { st with log := st.log ++ [file ++ " 是文件夹，上传文件夹需要参数 -recursive"] }
      else
        .ok { st with files := st.files ++ [⟨file, CID⟩] }

/-- The loop `for _, file := range flag.Args()` from the state `st` on. -/
def buildQueueFrom {Token : Type} (env : Env Token) (flags : Flags) (CID : Nat) :
    List String → QueueState → Except QueueState QueueState
  | [], st => .ok st
  | file :: rest, st =>
      match queueStep env flags CID st file with
      | .error p => .error p
      | .ok st1 => buildQueueFrom env flags CID rest st1

/-- Lines 546-624 of `main`: the queue built from the arguments `args`. -/
def buildQueue {Token : Type} (env : Env Token) (flags : Flags) (CID : Nat)
    (args : List String) : Except QueueState QueueState :=
  buildQueueFrom env flags CID args ⟨[], [], []⟩

/-! ## `uploadFile` (main.go, lines 654-716) -/

/-- The global `result`, the calls made so far and the lines logged. -/
structure State (Token : Type) where
  result : resultData
  calls : List (Call Token)
  log : List String
  deriving DecidableEq, Repr

/-- The statement `result.Success = append(result.Success, path)`. -/
def State.appendSuccess {Token : Type} (s : State Token) (path : String) : State Token :=
  { s with result := { s.result with Success := s.result.Success ++ [path] } }

/-- The statement `result.Failed = append(result.Failed, path)`. -/
def State.appendFailed {Token : Type} (s : State Token) (path : String) : State Token :=
  { s with result := { s.result with Failed := s.result.Failed ++ [path] } }

/-- A call of `log.Printf` or `log.Println`. -/
def State.logLine {Token : Type} (s : State Token) (line : String) : State Token :=
  { s with log := s.log ++ [line] }

/-- The call `file.fastUploadFile()`. -/
def callFastUploadFile {Token : Type} (env : Env Token) (file : fileInfo) (s : State Token) :
    (Token × Option GoError) × State Token :=
  let r := env.fastUploadFile file s.result
  (r.1, { s with result := r.2, calls := s.calls ++ [.fastUploadFile file] })

/-- The call `ossUploadFile(token, path)`. -/
def callOssUploadFile {Token : Type} (env : Env Token) (token : Token) (path : String)
    (s : State Token) : Option GoError × State Token :=
  let r := env.ossUploadFile token path s.result
  (r.1, { s with result := r.2, calls := s.calls ++ [.ossUploadFile token path] })

/-- The call `multipartUploadFile(token, path, nil)`. -/
def callMultipartUploadFile {Token : Type} (env : Env Token) (token : Token) (path : String)
    (s : State Token) : Option GoError × State Token :=
  let r := env.multipartUploadFile token path s.result
  (r.1, { s with result := r.2, calls := s.calls ++ [.multipartUploadFile token path] })

/-- The call `resumeUpload(path)`. -/
def callResumeUpload {Token : Type} (env : Env Token) (path : String) (s : State Token) :
    Option GoError × State Token :=
  let r := env.resumeUpload path s.result
  (r.1, { s with result := r.2, calls := s.calls ++ [.resumeUpload path] })

/-- The name of the checkpoint file of a target:
`filepath.Join(*saveDir, filepath.Base(file.Path)+".json")`. -/
def saveFile {Token : Type} (env : Env Token) (flags : Flags) (file : fileInfo) : String :=
  env.join flags.saveDir (env.base file.Path ++ ".json")

/-- The case `*fastUpload` of `uploadFile`. -/
def uploadFileFast {Token : Type} (env : Env Token) (file : fileInfo) (s : State Token) :
    State Token :=
  let (r, s) := callFastUploadFile env file s
  match r.2 with
  | some _ => (s.logLine ("秒传模式上传 " ++ file.Path ++ " 出现错误")).appendFailed file.Path
  | none => s.appendSuccess file.Path

/-- The case `*upload` of `uploadFile`. -/
def uploadFileOss {Token : Type} (env : Env Token) (file : fileInfo) (s : State Token) :
    State Token :=
  let (r, s) := callFastUploadFile env file s
  match r.2 with
  | some _ =>
      let s := s.logLine ("秒传模式上传 " ++ file.Path ++ " 出现错误")
      let s := s.logLine ("现在开始使用普通模式上传 " ++ file.Path)
      let (err, s) := callOssUploadFile env r.1 file.Path s
      match err with
      | some _ => (s.logLine ("普通模式上传 " ++ file.Path ++ " 出现错误")).appendFailed file.Path
      | none => s.appendSuccess file.Path
  | none => s.appendSuccess file.Path

/-- The case `*multipartUpload` of `uploadFile`. The result is the state on
return, or, as an error, the state at the moment of a run-time panic: when
`os.Stat(saveFile)` fails with an error for which `os.IsNotExist` is false, the
variable `info` is nil and `info.IsDir()` panics. -/
def uploadFileMultipart {Token : Type} (env : Env Token) (flags : Flags) (file : fileInfo)
    (s : State Token) : Except (State Token) (State Token) :=
  let saveFile := saveFile env flags file
  let st := env.stat saveFile
  let s := { s with calls := s.calls ++ [.stat saveFile] }
  let notExist :=
    match st with
    | .error e => e.notExist
    | .ok _ => false
  if notExist then
    let (r, s) := callFastUploadFile env file s
    match r.2 with
    | some _ =>
        let s := s.logLine ("秒传模式上传 " ++ file.Path ++ " 出现错误")
        let s := s.logLine "现在开始使用断点续传模式上传"
        let (err, s) := callMultipartUploadFile env r.1 file.Path s
        match err with
        | some e =>
            if errorsIsStopUpload e then .ok s
            else .ok ((s.logLine ("断点续传模式上传 " ++ file.Path ++ " 出现错误")).appendFailed file.Path)
        | none => .ok (s.appendSuccess file.Path)
    | none => .ok (s.appendSuccess file.Path)
  else
    match st with
    | .error _ => .error s
    | .ok info =>
        if info.IsDir then
          .ok ((s.logLine (saveFile ++ " 不能是文件夹")).appendFailed file.Path)
        else
          let s := s.logLine ("发现文件 " ++ file.Path ++ " 的上传曾经中断过，现在开始断点续传")
          let (err, s) := callResumeUpload env file.Path s
          match err with
          | some e =>
              if errorsIsStopUpload e then .ok s
              else .ok ((s.logLine ("断点续传模式上传 " ++ file.Path ++ " 出现错误")).appendFailed file.Path)
          | none => .ok (s.appendSuccess file.Path)

/-- The method `uploadFile`: the `switch` takes the first case whose flag is
set, and none when no flag is set. -/
def uploadFile {Token : Type} (env : Env Token) (flags : Flags) (file : fileInfo)
    (s : State Token) : Except (State Token) (State Token) :=
  if flags.fastUpload then .ok (uploadFileFast env file s)
  else if flags.upload then .ok (uploadFileOss env file s)
  else if flags.multipartUpload then uploadFileMultipart env flags file s
  else .ok s

/-- The loop `for _, file := range files` of `main` (lines 626-630), as far as
the goroutine of `main` alone runs it; the one-second sleeps are left out. -/
def uploadFiles {Token : Type} (env : Env Token) (flags : Flags) :
    List fileInfo → State Token → Except (State Token) (State Token)
  | [], s => .ok s
  | file :: rest, s =>
      match uploadFile env flags file s with
      | .error p => .error p
      | .ok s1 => uploadFiles env flags rest s1

/-- The four upload functions leave `result.Success` and `result.Failed` as they
find them. Their bodies are not in `main.go`; this is what a statement about
the two lists after `uploadFile` has to assume of them. -/
def Env.keepsOutcomeLists {Token : Type} (env : Env Token) : Prop :=
  (∀ file r, (env.fastUploadFile file r).2.Success = r.Success ∧
      (env.fastUploadFile file r).2.Failed = r.Failed) ∧
  (∀ token path r, (env.ossUploadFile token path r).2.Success = r.Success ∧
      (env.ossUploadFile token path r).2.Failed = r.Failed) ∧
  (∀ token path r, (env.multipartUploadFile token path r).2.Success = r.Success ∧
      (env.multipartUploadFile token path r).2.Failed = r.Failed) ∧
  (∀ path r, (env.resumeUpload path r).2.Success = r.Success ∧
      (env.resumeUpload path r).2.Failed = r.Failed)

/-! ## Sample inputs -/

/-- A transport whose first call fails with a transport error and whose later
calls answer with the given status code. -/
def failsOnce (code : Int) : Nat → Attempt String := fun n =>
  if n < 1 then ⟨none, some "connection reset"⟩ else ⟨some ⟨code, "body"⟩, none⟩

/-- A transport that answers every call with the given status code and no
transport error. -/
def answers (code : Int) : Nat → Attempt String := fun _ =>
  ⟨some ⟨code, ""⟩, none⟩

/-- A configuration file that sets the cookie and the given part count. -/
def sampleConfig (partsNum : Nat) : uploadConfig :=
  ⟨"UID=1; CID=2; SEID=3", 0, "", 0, "", partsNum⟩

/-- An environment in which `missing.bin` and `save/next.bin.json` do not exist,
`photos` is a directory and every other path is a regular file. The checkpoint file of a
target answers `os.Stat` with `checkpoint`, the dedup negotiation returns the
error `fast`, and every transfer returns the error `transfer`; a transfer that
stops records the path in `result.Saved`. -/
def sampleEnv (checkpoint : Except StatError FileStat) (fast transfer : Option GoError) :
    Env String where
  stat := fun path =>
    if path = "save/big.iso.json" then checkpoint
    else if path = "missing.bin" ∨ path = "save/next.bin.json" then
      .error ⟨true, "no such file or directory"⟩
    else .ok ⟨path = "photos"⟩
  join := fun dir name => dir ++ "/" ++ name
  base := fun path =>
    if path = "videos/big.iso" ∨ path = "backup/big.iso" then "big.iso" else path
  fastUploadFile := fun file r => (("token of " ++ file.Path, fast), r)
  ossUploadFile := fun _ _ r => (transfer, r)
  multipartUploadFile := fun _ path r =>
    (transfer, if transfer = some .stopUpload then { r with Saved := r.Saved ++ [path] } else r)
  resumeUpload := fun path r =>
    (transfer, if transfer = some .stopUpload then { r with Saved := r.Saved ++ [path] } else r)
  walkDir := fun _ _ files cidMap => (none, files, cidMap)

/-- The flags of a run with `-m -d save`. -/
def multipartFlags : Flags := ⟨false, false, true, "save", false⟩

/-- The flags of a run with `-u`. -/
def uploadFlags : Flags := ⟨false, true, false, "save", false⟩

/-- The target `videos/big.iso`, to be uploaded to the root folder. -/
def bigIso : fileInfo := ⟨"videos/big.iso", 0⟩

/-- The state before the first upload. -/
def emptyState : State String := ⟨⟨[], [], []⟩, [], []⟩

/-! ## Facts about machine words -/

theorem doRequestBound_of_small (w r : Nat) (hr : r + 1 < 2 ^ (w - 1)) :
    doRequestBound w r = r + 1 := by
  have hle : 2 ^ (w - 1) ≤ 2 ^ w := Nat.pow_le_pow_right (by norm_num) (Nat.sub_le w 1)
  have hmod : (r + 1) % 2 ^ w = r + 1 := Nat.mod_eq_of_lt (lt_of_lt_of_le hr hle)
  unfold doRequestBound uintToInt uintAdd
  rw [Nat.mod_mod, hmod, if_pos hr]
  simp

/-! ## Facts about the retry loop -/

section Loop

variable {Err : Type} (Do : Nat → Attempt Err) (verbose : Bool)

theorem doRequestLoop_attempts_range (rem : Nat) :
    ∀ (issued : List (Attempt Err)) (err : Option Err) (logged : List Err),
      issued = (List.range issued.length).map Do →
      (doRequestLoop Do verbose rem issued err logged).attempts =
        (List.range (doRequestLoop Do verbose rem issued err logged).attempts.length).map Do := by
  induction rem with
  | zero => intro issued err logged h; simpa [doRequestLoop] using h
  | succ n ih =>
      intro issued err logged h
      have hnext : issued ++ [Do issued.length] =
          (List.range (issued ++ [Do issued.length]).length).map Do := by
        rw [List.length_append, List.length_singleton, List.range_succ, List.map_append, ← h]
        simp
      unfold doRequestLoop
      cases hd : (Do issued.length).err with
      | none => simpa [hd] using hnext
      | some e => simpa [hd] using ih _ (some e) _ hnext

theorem doRequestLoop_success (rem : Nat) :
    ∀ (issued : List (Attempt Err)) (err : Option Err) (logged : List Err) (k : Nat),
      k < rem → (∀ j, j < k → (Do (issued.length + j)).err ≠ none) →
      (Do (issued.length + k)).err = none →
      (doRequestLoop Do verbose rem issued err logged).resp = (Do (issued.length + k)).resp ∧
      (doRequestLoop Do verbose rem issued err logged).err = none ∧
      (doRequestLoop Do verbose rem issued err logged).attempts.length = issued.length + k + 1 := by
  induction rem with
  | zero => intro _ _ _ k hk; omega
  | succ n ih =>
      intro issued err logged k hk hfail hok
      unfold doRequestLoop
      cases k with
      | zero =>
          have hd : (Do issued.length).err = none := by simpa using hok
          simp [hd]
      | succ k =>
          have h0 : (Do issued.length).err ≠ none := by simpa using hfail 0 (by omega)
          cases hd : (Do issued.length).err with
          | none => exact absurd hd h0
          | some e =>
              have hlen : (issued ++ [Do issued.length]).length = issued.length + 1 := by simp
              have := ih (issued ++ [Do issued.length]) (some e)
                (if verbose then logged ++ [e] else logged) k (by omega)
                (fun j hj => by rw [hlen, Nat.add_assoc, Nat.add_comm 1 j]; exact hfail (j + 1) (by omega))
                (by rw [hlen, Nat.add_assoc, Nat.add_comm 1 k]; exact hok)
              rw [hlen, Nat.add_assoc issued.length 1 k, Nat.add_comm 1 k] at this
              simpa [hd] using this

theorem doRequestLoop_failure (rem : Nat) :
    ∀ (issued : List (Attempt Err)) (err : Option Err) (logged : List Err),
      (∀ j, j < rem → (Do (issued.length + j)).err ≠ none) →
      (doRequestLoop Do verbose rem issued err logged).resp = none ∧
      (doRequestLoop Do verbose rem issued err logged).err ≠ none ∧
      (doRequestLoop Do verbose rem issued err logged).attempts.length = issued.length + rem := by
  induction rem with
  | zero => intro issued err logged _; simp [doRequestLoop]
  | succ n ih =>
      intro issued err logged hfail
      unfold doRequestLoop
      have h0 : (Do issued.length).err ≠ none := by simpa using hfail 0 (by omega)
      cases hd : (Do issued.length).err with
      | none => exact absurd hd h0
      | some e =>
          have hlen : (issued ++ [Do issued.length]).length = issued.length + 1 := by simp
          have := ih (issued ++ [Do issued.length]) (some e)
            (if verbose then logged ++ [e] else logged)
            (fun j hj => by rw [hlen, Nat.add_assoc, Nat.add_comm 1 j]; exact hfail (j + 1) (by omega))
          rw [hlen] at this
          simp only [hd]
          refine ⟨this.1, this.2.1, ?_⟩
          rw [this.2.2]; omega

theorem doRequestLoop_error_all_failed (rem : Nat) :
    ∀ (issued : List (Attempt Err)) (err : Option Err) (logged : List Err),
      (doRequestLoop Do verbose rem issued err logged).err ≠ none →
      ∀ j, j < rem → (Do (issued.length + j)).err ≠ none := by
  induction rem with
  | zero => intro _ _ _ _ j hj; omega
  | succ n ih =>
      intro issued err logged hres j hj
      unfold doRequestLoop at hres
      cases hd : (Do issued.length).err with
      | none => simp [hd] at hres
      | some e =>
          simp only [hd] at hres
          cases j with
          | zero => simp [hd]
          | succ j =>
              have hlen : (issued ++ [Do issued.length]).length = issued.length + 1 := by simp
              have := ih _ _ _ hres j (by omega)
              rw [hlen, Nat.add_assoc, Nat.add_comm 1 j] at this
              exact this

theorem doRequestLoop_attempts_le (rem : Nat) :
    ∀ (issued : List (Attempt Err)) (err : Option Err) (logged : List Err),
      (doRequestLoop Do verbose rem issued err logged).attempts.length ≤ issued.length + rem := by
  induction rem with
  | zero => intro issued err logged; simp [doRequestLoop]
  | succ n ih =>
      intro issued err logged
      unfold doRequestLoop
      cases hd : (Do issued.length).err with
      | none => simp [hd]
      | some e =>
          have := ih (issued ++ [Do issued.length]) (some e)
            (if verbose then logged ++ [e] else logged)
          simp only [List.length_append, List.length_singleton] at this
          simp only [hd]
          omega

end Loop

/-! ## The retry contract of `doRequest` -/

/-- C1: for a retry count `r` with `r + 1` representable as a signed `w`-bit
int, `doRequest` issues the attempts `Do 0`, `Do 1`, ... in order; it returns the
response of the first attempt without transport error, with a nil error, and
issues nothing after it; it returns a non-nil error exactly when the first
`r + 1` attempts all fail, then with a nil response; it never issues more than
`r + 1` attempts, and exactly one when `r = 0`. -/
theorem doRequest_retry_contract {Err : Type} (w r : Nat) (Do : Nat → Attempt Err)
    (verbose : Bool) (hr : r + 1 < 2 ^ (w - 1)) :
    (doRequest w r Do verbose).attempts =
        (List.range (doRequest w r Do verbose).attempts.length).map Do ∧
    (∀ k, k ≤ r → (∀ j, j < k → (Do j).err ≠ none) → (Do k).err = none →
        (doRequest w r Do verbose).resp = (Do k).resp ∧
        (doRequest w r Do verbose).err = none ∧
        (doRequest w r Do verbose).attempts.length = k + 1) ∧
    ((doRequest w r Do verbose).err ≠ none ↔ ∀ j, j ≤ r → (Do j).err ≠ none) ∧
    ((doRequest w r Do verbose).err ≠ none →
        (doRequest w r Do verbose).resp = none ∧
        (doRequest w r Do verbose).attempts.length = r + 1) ∧
    1 ≤ (doRequest w r Do verbose).attempts.length ∧
    (doRequest w r Do verbose).attempts.length ≤ r + 1 ∧
    (r = 0 → (doRequest w r Do verbose).attempts.length = 1) := by
  have hb := doRequestBound_of_small w r hr
  have hle := doRequestLoop_attempts_le Do verbose (r + 1) [] none []
  have hall : (doRequest w r Do verbose).err ≠ none → ∀ j, j ≤ r → (Do j).err ≠ none := by
    intro h j hj
    unfold doRequest at h
    rw [hb] at h
    simpa using doRequestLoop_error_all_failed Do verbose (r + 1) [] none [] h j (by omega)
  have hfail : (∀ j, j ≤ r → (Do j).err ≠ none) →
      (doRequest w r Do verbose).resp = none ∧ (doRequest w r Do verbose).err ≠ none ∧
      (doRequest w r Do verbose).attempts.length = r + 1 := by
    intro h
    unfold doRequest
    rw [hb]
    simpa using doRequestLoop_failure Do verbose (r + 1) [] none []
      (fun j hj => by simpa using h j (by omega))
  have hsucc : ∀ k, k ≤ r → (∀ j, j < k → (Do j).err ≠ none) → (Do k).err = none →
      (doRequest w r Do verbose).resp = (Do k).resp ∧
      (doRequest w r Do verbose).err = none ∧
      (doRequest w r Do verbose).attempts.length = k + 1 := by
    intro k hk hbefore hok
    unfold doRequest
    rw [hb]
    simpa using doRequestLoop_success Do verbose (r + 1) [] none [] k (by omega)
      (fun j hj => by simpa using hbefore j hj) (by simpa using hok)
  have hone : 1 ≤ (doRequest w r Do verbose).attempts.length := by
    by_cases h : ∀ j, j ≤ r → (Do j).err ≠ none
    · rw [(hfail h).2.2]; omega
    · push_neg at h
      have hex : ∃ k, k ≤ r ∧ (Do k).err = none := h
      classical
      have hmin := Nat.find_spec hex
      have hlt : ∀ j, j < Nat.find hex → (Do j).err ≠ none := by
        intro j hj hnone
        exact Nat.find_min hex hj ⟨by omega, hnone⟩
      rw [(hsucc _ hmin.1 hlt hmin.2).2.2]; omega
  have hlen : (doRequest w r Do verbose).attempts.length ≤ r + 1 := by
    unfold doRequest
    rw [hb]
    simpa using hle
  refine ⟨?_, hsucc, ⟨hall, fun h => (hfail h).2.1⟩, ?_, hone, hlen, ?_⟩
  · unfold doRequest
    exact doRequestLoop_attempts_range Do verbose _ [] none [] (by simp)
  · intro h
    exact ⟨(hfail (hall h)).1, (hfail (hall h)).2.2⟩
  · intro h0
    subst h0
    omega

/-- C1, at a concrete input: with retry count 2 on a 64-bit word and a transport
that fails once, the second attempt is returned and no third one is issued. -/
theorem doRequest_retry_contract_witness :
    2 + 1 < 2 ^ (64 - 1) ∧
    (doRequest 64 2 (failsOnce 200) false).resp = some ⟨200, "body"⟩ ∧
    (doRequest 64 2 (failsOnce 200) false).err = none ∧
    (doRequest 64 2 (failsOnce 200) false).attempts.length = 2 :=
  ⟨by norm_num,
    (doRequest_retry_contract 64 2 (failsOnce 200) false (by norm_num)).2.1 1 (by norm_num)
      (fun j hj => by
        have : j = 0 := by omega
        subst this
        simp [failsOnce])
      (by simp [failsOnce])⟩

/-- The loop bound is 0 as soon as `HTTPRetry + 1` does not fit a signed
`w`-bit int: either the sum wraps to 0 or the conversion makes it negative. -/
theorem doRequestBound_of_large (w r : Nat) (hr : r < 2 ^ w)
    (hbig : 2 ^ (w - 1) ≤ r + 1) : doRequestBound w r = 0 := by
  have hpos : 0 < 2 ^ w := Nat.two_pow_pos _
  unfold doRequestBound uintToInt uintAdd
  rw [Nat.mod_mod]
  by_cases hwrap : r + 1 = 2 ^ w
  · have hhalf : 0 < 2 ^ (w - 1) := Nat.two_pow_pos _
    rw [hwrap, Nat.mod_self, if_pos hhalf]
    simp
  · have hlt : r + 1 < 2 ^ w := by omega
    rw [Nat.mod_eq_of_lt hlt, if_neg (by omega)]
    apply Int.toNat_eq_zero.mpr
    omega

/-- C10: with `HTTPRetry` at the largest 64-bit value the bound
`int(HTTPRetry+1)` is 0, and at `2^63 - 1` it is negative (likewise at the
largest 32-bit value on a 32-bit word): `doRequest` issues no attempt at all,
whatever the transport would answer, and returns a non-nil error that wraps a
nil error, with a nil response. -/
theorem doRequest_huge_retry_no_attempt {Err : Type} (Do : Nat → Attempt Err) (verbose : Bool) :
    uintToInt 64 (uintAdd 64 (2 ^ 64 - 1) 1) = 0 ∧
    uintToInt 64 (uintAdd 64 (2 ^ 63 - 1) 1) = -(2 ^ 63) ∧
    doRequest 64 (2 ^ 64 - 1) Do verbose = ⟨none, some ⟨"http请求出现错误", none⟩, [], []⟩ ∧
    doRequest 64 (2 ^ 63 - 1) Do verbose = ⟨none, some ⟨"http请求出现错误", none⟩, [], []⟩ ∧
    doRequest 32 (2 ^ 32 - 1) Do verbose = ⟨none, some ⟨"http请求出现错误", none⟩, [], []⟩ := by
  have h1 : doRequestBound 64 (2 ^ 64 - 1) = 0 :=
    doRequestBound_of_large 64 _ (by norm_num) (by norm_num)
  have h2 : doRequestBound 64 (2 ^ 63 - 1) = 0 :=
    doRequestBound_of_large 64 _ (by norm_num) (by norm_num)
  have h3 : doRequestBound 32 (2 ^ 32 - 1) = 0 :=
    doRequestBound_of_large 32 _ (by norm_num) (by norm_num)
  refine ⟨by norm_num [uintToInt, uintAdd], by norm_num [uintToInt, uintAdd], ?_, ?_, ?_⟩
  · unfold doRequest; rw [h1]; rfl
  · unfold doRequest; rw [h2]; rfl
  · unfold doRequest; rw [h3]; rfl

/-- C7, as stated, fails: with retry count 3 the first attempt is answered with
status 500, which is outside 200..299, and `doRequest` returns that very
response with a nil error after this single attempt. -/
theorem doRequest_returns_status_500 :
    ¬ (200 ≤ (500 : Int) ∧ (500 : Int) ≤ 299) ∧
    (answers 500 0).resp = some ⟨500, ""⟩ ∧
    (doRequest 64 3 (answers 500) false).resp = some ⟨500, ""⟩ ∧
    (doRequest 64 3 (answers 500) false).err = none ∧
    (doRequest 64 3 (answers 500) false).attempts.length = 1 := by
  have hb : doRequestBound 64 3 = 4 := doRequestBound_of_small 64 3 (by norm_num)
  refine ⟨by norm_num, rfl, ?_, ?_, ?_⟩ <;>
    · unfold doRequest; rw [hb]; rfl

/-- C7, amended: the retry policy of `doRequest` does not look at the status
code. An attempt fails only when `httpClient.Do` returns a non-nil error; the
first attempt within the bound that returns a response without transport error
is returned at once, with a nil error and no further attempt, whatever its
status code; the attempts before it, which had a transport error, are the only
ones retried. -/
theorem doRequest_status_not_inspected {Err : Type} (w r : Nat) (Do : Nat → Attempt Err)
    (verbose : Bool) (k : Nat) (code : Int) (body : String)
    (hk : k < doRequestBound w r)
    (hbefore : ∀ j, j < k → (Do j).err ≠ none)
    (hresp : Do k = ⟨some ⟨code, body⟩, none⟩) :
    (doRequest w r Do verbose).resp = some ⟨code, body⟩ ∧
    (doRequest w r Do verbose).err = none ∧
    (doRequest w r Do verbose).attempts.length = k + 1 ∧
    ((doRequest w r Do verbose).attempts.getLast? = some ⟨some ⟨code, body⟩, none⟩) := by
  have hok : (Do k).err = none := by rw [hresp]
  have h := doRequestLoop_success Do verbose (doRequestBound w r) [] none [] k hk
    (fun j hj => by simpa using hbefore j hj) (by simpa using hok)
  have hrange := doRequestLoop_attempts_range Do verbose (doRequestBound w r) [] none [] (by simp)
  simp only [List.length_nil, Nat.zero_add] at h
  unfold doRequest
  refine ⟨by rw [h.1, hresp], h.2.1, h.2.2, ?_⟩
  rw [hrange, h.2.2, List.range_succ, List.map_append]
  simp [hresp]

/-- C7, amended, at a concrete input: with retry count 3, the first attempt has a
transport error and is retried; the second is answered with status 503, which
is returned as it is after two attempts. -/
theorem doRequest_status_not_inspected_witness :
    (1 < doRequestBound 64 3) ∧
    (failsOnce 503 0).err ≠ none ∧
    (doRequest 64 3 (failsOnce 503) true).resp = some ⟨503, "body"⟩ ∧
    (doRequest 64 3 (failsOnce 503) true).err = none ∧
    (doRequest 64 3 (failsOnce 503) true).attempts.length = 1 + 1 ∧
    (doRequest 64 3 (failsOnce 503) true).attempts.getLast? = some ⟨some ⟨503, "body"⟩, none⟩ :=
  ⟨by rw [doRequestBound_of_small 64 3 (by norm_num)]; norm_num,
    by simp [failsOnce],
    doRequest_status_not_inspected 64 3 (failsOnce 503) true 1 503 "body"
      (by rw [doRequestBound_of_small 64 3 (by norm_num)]; norm_num)
      (fun j hj => by
        have : j = 0 := by omega
        subst this
        simp [failsOnce])
      rfl⟩

/-! ## The part-count checks -/

/-- C6: the part count in force after the checks is the flag value `p` when it
is not 0 and the value `c` of the configuration file otherwise; the checks exit
with status 1 whenever that count is greater than 10000, in every mode; in
multipart mode every count in 1..10000 passes; and the count 0, which the flag
documents as automatic partitioning, passes in every mode and stays 0. -/
theorem partsNumChecks_effective_count (p : Nat) (multipart : Bool) (config : uploadConfig) :
    (∀ config1, partsNumChecks p multipart config = .ok config1 →
        config1 = { config with PartsNum := if p ≠ 0 then p else config.PartsNum }) ∧
    ((if p ≠ 0 then p else config.PartsNum) > 10000 →
        ∃ msg, partsNumChecks p multipart config = .error ⟨1, msg⟩) ∧
    (multipart = true → 1 ≤ (if p ≠ 0 then p else config.PartsNum) →
        (if p ≠ 0 then p else config.PartsNum) ≤ 10000 →
        partsNumChecks p multipart config =
          .ok { config with PartsNum := if p ≠ 0 then p else config.PartsNum }) ∧
    ((if p ≠ 0 then p else config.PartsNum) = 0 →
        partsNumChecks p multipart config = .ok { config with PartsNum := 0 }) := by
  by_cases hp : p = 0
  · subst hp
    by_cases hc : config.PartsNum > maxParts
    · have hc1 : ¬ config.PartsNum ≤ 10000 := by unfold maxParts at hc; omega
      have hc2 : config.PartsNum ≠ 0 := by unfold maxParts at hc; omega
      simp [partsNumChecks, hc, hc1, hc2]
    · have hc1 : config.PartsNum ≤ 10000 := by unfold maxParts at hc; omega
      simp [partsNumChecks, hc, hc1]
      intro h0
      cases config
      simp_all
  · by_cases hm : multipart = true
    · subst hm
      by_cases hc : p > maxParts
      · have hc1 : ¬ p ≤ 10000 := by unfold maxParts at hc; omega
        simp [partsNumChecks, hp, hc, hc1]
      · have hc1 : p ≤ 10000 := by unfold maxParts at hc; omega
        simp [partsNumChecks, hp, hc, hc1]
    · simp [partsNumChecks, hp, hm]

/-- C6, at concrete inputs: 10001 from either source is rejected, 10000 and 1
pass in multipart mode, and 0 passes. -/
theorem partsNumChecks_effective_count_witness :
    partsNumChecks 10001 true (sampleConfig 5) = .error ⟨1, "分片数量不能大于10000"⟩ ∧
    partsNumChecks 0 false (sampleConfig 10001) = .error ⟨1, "分片数量不能大于10000"⟩ ∧
    partsNumChecks 10000 true (sampleConfig 5) = .ok (sampleConfig 10000) ∧
    partsNumChecks 0 true (sampleConfig 1) = .ok (sampleConfig 1) ∧
    partsNumChecks 0 true (sampleConfig 0) = .ok (sampleConfig 0) := by
  have h := partsNumChecks_effective_count 10000 true (sampleConfig 5)
  exact ⟨rfl, rfl, h.2.2.1 rfl (by decide) (by decide), rfl, rfl⟩

/-! ## Building the upload queue -/

/-- An iteration whose `os.Stat` succeeds does not panic. -/
theorem queueStep_ok_of_stat_ok {Token : Type} (env : Env Token) (flags : Flags) (CID : Nat)
    (st : QueueState) (file : String) (info : FileStat) (h : env.stat file = .ok info) :
    ∃ st1, queueStep env flags CID st file = .ok st1 := by
  unfold queueStep
  simp only [h]
  by_cases hd : info.IsDir = true
  · by_cases hr : flags.recursive = true
    · cases hw : (env.walkDir file CID st.files st.cidMap).1 <;> simp [hd, hr, hw]
    · simp [hd, hr]
  · simp [hd]

/-- An iteration whose `os.Stat` fails logs the error and then panics, with the
queue as it was. -/
theorem queueStep_panics_of_stat_error {Token : Type} (env : Env Token) (flags : Flags)
    (CID : Nat) (st : QueueState) (file : String) (e : StatError)
    (h : env.stat file = .error e) :
    queueStep env flags CID st file =
      .error { st with log := st.log ++ ["获取 " ++ file ++ " 的信息出现错误：" ++ e.msg] } := by
  unfold queueStep
  simp only [h]

/-- Whenever `os.Stat` fails for some argument, building the queue ends in a
run-time panic. -/
theorem buildQueueFrom_panics_of_stat_error {Token : Type} (env : Env Token) (flags : Flags)
    (CID : Nat) (args : List String) :
    ∀ st : QueueState, (∃ a, a ∈ args ∧ ∃ e, env.stat a = .error e) →
      ∃ p, buildQueueFrom env flags CID args st = .error p := by
  induction args with
  | nil => intro st h; obtain ⟨a, ha, _⟩ := h; simp at ha
  | cons file rest ih =>
      intro st h
      unfold buildQueueFrom
      cases hs : env.stat file with
      | error e =>
          rw [queueStep_panics_of_stat_error env flags CID st file e hs]
          exact ⟨_, rfl⟩
      | ok info =>
          obtain ⟨st1, hst1⟩ := queueStep_ok_of_stat_ok env flags CID st file info hs
          rw [hst1]
          apply ih
          obtain ⟨a, ha, e, he⟩ := h
          rcases List.mem_cons.mp ha with rfl | hmem
          · rw [hs] at he; cases he
          · exact ⟨a, hmem, e, he⟩

/-- C9: for the arguments `notes.txt missing.bin later.txt`, where `os.Stat`
fails for `missing.bin`, the error is logged and then `info.IsDir()` is called
on the nil file info: building the queue panics at the second argument, with
`notes.txt` queued and `later.txt` never looked at. -/
theorem buildQueue_panics_on_missing_file :
    (sampleEnv (.ok ⟨false⟩) none none).stat "missing.bin" =
      .error ⟨true, "no such file or directory"⟩ ∧
    buildQueue (sampleEnv (.ok ⟨false⟩) none none) multipartFlags 0
        ["notes.txt", "missing.bin", "later.txt"] =
      .error ⟨[⟨"notes.txt", 0⟩], [],
        ["获取 missing.bin 的信息出现错误：no such file or directory"]⟩ := by
  constructor
  · rfl
  · rfl

/-! ## What `uploadFile` records -/

theorem sampleEnv_keepsOutcomeLists (checkpoint : Except StatError FileStat)
    (fast transfer : Option GoError) : (sampleEnv checkpoint fast transfer).keepsOutcomeLists := by
  refine ⟨fun _ _ => ⟨rfl, rfl⟩, fun _ _ _ => ⟨rfl, rfl⟩, fun _ _ r => ?_, fun _ r => ?_⟩ <;>
    · simp only [sampleEnv]
      split <;> exact ⟨rfl, rfl⟩

/-- C2: in mode `-f`, in mode `-u`, and in mode `-m` when `os.Stat` reports that
the checkpoint file does not exist, a `fastUploadFile` that returns a nil error
is the only upload function called (after the `os.Stat` of mode `-m`), and
`uploadFile` returns with the global `result` as `fastUploadFile` left it plus
the path appended to `result.Success`. -/
theorem uploadFile_dedup_hit {Token : Type} (env : Env Token) (flags : Flags) (file : fileInfo)
    (s : State Token)
    (hmode : flags.fastUpload = true ∨ flags.upload = true ∨
      (flags.multipartUpload = true ∧
        ∃ e, env.stat (saveFile env flags file) = .error e ∧ e.notExist = true))
    (hhit : (env.fastUploadFile file s.result).1.2 = none) :
    ∃ s1, uploadFile env flags file s = .ok s1 ∧
      s1.result = { (env.fastUploadFile file s.result).2 with
        Success := (env.fastUploadFile file s.result).2.Success ++ [file.Path] } ∧
      s1.calls = s.calls ++
        (if flags.fastUpload = true ∨ flags.upload = true then []
          else [Call.stat (saveFile env flags file)]) ++ [Call.fastUploadFile file] := by
  by_cases hf : flags.fastUpload = true
  · simp [uploadFile, uploadFileFast, callFastUploadFile, hf, hhit, State.appendSuccess]
  · by_cases hu : flags.upload = true
    · simp [uploadFile, uploadFileOss, callFastUploadFile, hf, hu, hhit, State.appendSuccess]
    · rcases hmode with h | h | ⟨hm, e, hst, hne⟩
      · exact absurd h hf
      · exact absurd h hu
      · simp [uploadFile, uploadFileMultipart, callFastUploadFile, hf, hu, hm, hst, hne, hhit,
          State.appendSuccess]

/-- C2, at a concrete input: mode `-m`, no checkpoint file, dedup hit. -/
theorem uploadFile_dedup_hit_witness :
    ∃ s1, uploadFile (sampleEnv (.error ⟨true, "no such file or directory"⟩) none none)
        multipartFlags bigIso emptyState = .ok s1 ∧
      s1.result = ⟨["videos/big.iso"], [], []⟩ ∧
      s1.calls = [Call.stat "save/big.iso.json", Call.fastUploadFile bigIso] :=
  uploadFile_dedup_hit (sampleEnv (.error ⟨true, "no such file or directory"⟩) none none)
    multipartFlags bigIso emptyState (Or.inr (Or.inr ⟨rfl, _, rfl, rfl⟩)) rfl

/-- C4: in mode `-m`, when `multipartUploadFile` (no checkpoint file, dedup
miss) or `resumeUpload` (checkpoint file present) returns an error for which
`errors.Is(err, errStopUpload)` holds, `uploadFile` returns without writing
`result`: the global `result` is what the stopped transfer left, so with upload
functions that keep the two outcome lists, `result.Failed` and
`result.Success` are unchanged. -/
theorem uploadFile_stopped_adds_nothing {Token : Type} (env : Env Token) (flags : Flags)
    (file : fileInfo) (s : State Token)
    (hf : flags.fastUpload = false) (hu : flags.upload = false)
    (hm : flags.multipartUpload = true)
    (hkeep : env.keepsOutcomeLists)
    (hstop :
      (∃ e0 e1 e, env.stat (saveFile env flags file) = .error e0 ∧ e0.notExist = true ∧
        (env.fastUploadFile file s.result).1.2 = some e1 ∧
        (env.multipartUploadFile (env.fastUploadFile file s.result).1.1 file.Path
          (env.fastUploadFile file s.result).2).1 = some e ∧
        errorsIsStopUpload e = true) ∨
      (∃ e, env.stat (saveFile env flags file) = .ok ⟨false⟩ ∧
        (env.resumeUpload file.Path s.result).1 = some e ∧ errorsIsStopUpload e = true)) :
    ∃ s1, uploadFile env flags file s = .ok s1 ∧
      s1.result.Failed = s.result.Failed ∧ s1.result.Success = s.result.Success ∧
      (s1.result = (env.multipartUploadFile (env.fastUploadFile file s.result).1.1 file.Path
          (env.fastUploadFile file s.result).2).2 ∨
        s1.result = (env.resumeUpload file.Path s.result).2) := by
  obtain ⟨hkf, _, hkm, hkr⟩ := hkeep
  rcases hstop with ⟨e0, e1, e, hst, hne, hfast, hmulti, hstopE⟩ | ⟨e, hst, hres, hstopE⟩
  · simp only [uploadFile, uploadFileMultipart, callFastUploadFile, callMultipartUploadFile,
      State.logLine, hf, hu, hm, hst, hne, hfast, hmulti, hstopE]
    simp [(hkm _ _ _).2, (hkf _ _).2, (hkm _ _ _).1, (hkf _ _).1]
  · simp only [uploadFile, uploadFileMultipart, callResumeUpload, State.logLine, hf, hu, hm,
      hst, hres, hstopE]
    simp [(hkr _ _).2, (hkr _ _).1]

/-- C4, at a concrete input: a fresh multipart transfer of `videos/big.iso` that
is stopped leaves both outcome lists empty; the path is in `result.Saved`, put
there by the transfer. -/
theorem uploadFile_stopped_adds_nothing_witness :
    ∃ s1, uploadFile
        (sampleEnv (.error ⟨true, "no such file or directory"⟩) (some (.other "not on server"))
          (some .stopUpload)) multipartFlags bigIso emptyState = .ok s1 ∧
      s1.result.Failed = [] ∧ s1.result.Success = [] ∧
      s1.result = ⟨[], [], ["videos/big.iso"]⟩ :=
  match uploadFile_stopped_adds_nothing
    (sampleEnv (.error ⟨true, "no such file or directory"⟩) (some (.other "not on server"))
      (some .stopUpload)) multipartFlags bigIso emptyState rfl rfl rfl
    (sampleEnv_keepsOutcomeLists _ _ _)
    (Or.inl ⟨_, _, _, rfl, rfl, rfl, rfl, rfl⟩) with
  | ⟨s1, hrun, hfailed, hsuccess, hresult⟩ => ⟨s1, hrun, hfailed, hsuccess, hresult.elim id id⟩

/-- In mode `-m` the checkpoint file is
`filepath.Join(saveDir, filepath.Base(path) + ".json")`, the same for every
run and every target with the same save directory and base name, and it is the
file `os.Stat` is called on. When `os.Stat` returns a file info that is not a
directory, `uploadFile` calls `resumeUpload` with the target path and neither
`fastUploadFile` nor `multipartUploadFile`, and records what `resumeUpload`
returned. When `os.Stat` returns an error for which `os.IsNotExist` is true, the
first upload function called is `fastUploadFile`. These are the two answers of
`os.Stat` on which the lookup works; the others are the subject of
`uploadFile_panics_of_other_stat_error`. -/
theorem uploadFile_checkpoint_as_reported {Token : Type} (env : Env Token) (flags : Flags)
    (file : fileInfo) (s : State Token)
    (hf : flags.fastUpload = false) (hu : flags.upload = false)
    (hm : flags.multipartUpload = true) :
    saveFile env flags file = env.join flags.saveDir (env.base file.Path ++ ".json") ∧
    (∀ (env2 : Env Token) (flags2 : Flags) (file2 : fileInfo),
        env2.join = env.join → env2.base = env.base → flags2.saveDir = flags.saveDir →
        env.base file2.Path = env.base file.Path →
        saveFile env2 flags2 file2 = saveFile env flags file) ∧
    (env.stat (saveFile env flags file) = .ok ⟨false⟩ →
        ∃ s1, uploadFile env flags file s = .ok s1 ∧
          s1.calls = s.calls ++
            [Call.stat (saveFile env flags file), Call.resumeUpload file.Path] ∧
          s1.result =
            (match (env.resumeUpload file.Path s.result).1 with
              | none =>
                  { (env.resumeUpload file.Path s.result).2 with
                    Success := (env.resumeUpload file.Path s.result).2.Success ++ [file.Path] }
              | some e =>
                  if errorsIsStopUpload e then (env.resumeUpload file.Path s.result).2
                  else
                    { (env.resumeUpload file.Path s.result).2 with
                      Failed := (env.resumeUpload file.Path s.result).2.Failed ++ [file.Path] })) ∧
    (∀ e, env.stat (saveFile env flags file) = .error e → e.notExist = true →
        ∃ s1 rest, uploadFile env flags file s = .ok s1 ∧
          s1.calls = s.calls ++
            [Call.stat (saveFile env flags file), Call.fastUploadFile file] ++ rest ∧
          (rest = [] ∨ rest = [Call.multipartUploadFile
            (env.fastUploadFile file s.result).1.1 file.Path])) := by
  refine ⟨rfl, ?_, ?_, ?_⟩
  · intro env2 flags2 file2 hj hb hd hbase
    unfold saveFile
    rw [hj, hb, hd, hbase]
  · intro hst
    simp only [uploadFile, uploadFileMultipart, callResumeUpload, State.logLine, hf, hu, hm, hst]
    cases hres : (env.resumeUpload file.Path s.result).1 with
    | none => simp [State.appendSuccess]
    | some e =>
        by_cases hstopE : errorsIsStopUpload e = true
        · simp [hstopE]
        · simp [hstopE, State.appendFailed, State.logLine]
  · intro e hst hne
    simp only [uploadFile, uploadFileMultipart, callFastUploadFile, callMultipartUploadFile,
      State.logLine, hf, hu, hm, hst, hne]
    cases hfast : (env.fastUploadFile file s.result).1.2 with
    | none => simp [State.appendSuccess]
    | some e1 =>
        cases hmulti : (env.multipartUploadFile (env.fastUploadFile file s.result).1.1 file.Path
            (env.fastUploadFile file s.result).2).1 with
        | none => simp [hmulti, State.appendSuccess]
        | some e2 =>
            by_cases hstopE : errorsIsStopUpload e2 = true
            · simp [hmulti, hstopE]
            · simp [hmulti, hstopE, State.appendFailed, State.logLine]

/-- The statement above at concrete inputs: with save directory `save`, the
targets `videos/big.iso` and `backup/big.iso` share the checkpoint file
`save/big.iso.json`, and a checkpoint that `os.Stat` finds is resumed. -/
theorem uploadFile_checkpoint_as_reported_example :
    saveFile (sampleEnv (.ok ⟨false⟩) none none) multipartFlags bigIso = "save/big.iso.json" ∧
    saveFile (sampleEnv (.ok ⟨false⟩) none none) multipartFlags ⟨"backup/big.iso", 7⟩ =
      saveFile (sampleEnv (.ok ⟨false⟩) none none) multipartFlags bigIso ∧
    (∃ s1, uploadFile (sampleEnv (.ok ⟨false⟩) none none) multipartFlags bigIso emptyState =
        .ok s1 ∧
      s1.calls = [Call.stat "save/big.iso.json", Call.resumeUpload "videos/big.iso"] ∧
      s1.result = ⟨["videos/big.iso"], [], []⟩) :=
  have h := uploadFile_checkpoint_as_reported (sampleEnv (.ok ⟨false⟩) none none) multipartFlags
    bigIso emptyState rfl rfl rfl
  ⟨h.1, h.2.1 _ multipartFlags ⟨"backup/big.iso", 7⟩ rfl rfl rfl rfl, h.2.2.1 rfl⟩

/-- In mode `-m`, whenever `os.Stat` of the checkpoint file fails with an error
for which `os.IsNotExist` is false, `uploadFile` panics right after the
`os.Stat` call: no upload function is called and `result` is not written. -/
theorem uploadFile_panics_of_other_stat_error {Token : Type} (env : Env Token) (flags : Flags)
    (file : fileInfo) (s : State Token)
    (hf : flags.fastUpload = false) (hu : flags.upload = false)
    (hm : flags.multipartUpload = true) (e : StatError)
    (hst : env.stat (saveFile env flags file) = .error e) (hne : e.notExist = false) :
    uploadFile env flags file s =
      .error { s with calls := s.calls ++ [Call.stat (saveFile env flags file)] } := by
  simp [uploadFile, uploadFileMultipart, hf, hu, hm, hst, hne]

/-- C8: the checkpoint file of `videos/big.iso` with `-m -d save` is
`save/big.iso.json`. When `save` is a regular file, or when the name is longer
than the file system allows, that file does not exist, and `os.Stat` fails with
an error for which `os.IsNotExist` is false; `uploadFile` then does not start
from the dedup negotiation: it panics after the `os.Stat` call, with
`fastUploadFile` never called. When the file exists and is a regular file, but
the directory `save` may not be searched, `os.Stat` fails the same way, and
`uploadFile` does not resume: it panics, with `resumeUpload` never called. -/
theorem uploadFile_checkpoint_lookup_panics :
    saveFile (sampleEnv (.error ⟨false, "not a directory"⟩) none none) multipartFlags bigIso =
      "save/big.iso.json" ∧
    uploadFile (sampleEnv (.error ⟨false, "not a directory"⟩) none none) multipartFlags
        bigIso emptyState =
      .error ⟨⟨[], [], []⟩, [Call.stat "save/big.iso.json"], []⟩ ∧
    uploadFile (sampleEnv (.error ⟨false, "file name too long"⟩) none none) multipartFlags
        bigIso emptyState =
      .error ⟨⟨[], [], []⟩, [Call.stat "save/big.iso.json"], []⟩ ∧
    uploadFile (sampleEnv (.error ⟨false, "permission denied"⟩) none none) multipartFlags
        bigIso emptyState =
      .error ⟨⟨[], [], []⟩, [Call.stat "save/big.iso.json"], []⟩ ∧
    Call.fastUploadFile bigIso ∉ [(Call.stat "save/big.iso.json" : Call String)] ∧
    Call.resumeUpload "videos/big.iso" ∉ [(Call.stat "save/big.iso.json" : Call String)] := by
  refine ⟨rfl, rfl, rfl, rfl, ?_, ?_⟩ <;> simp

/-- On every path of `uploadFile` that returns, in any of the three modes, with
upload functions that keep the two outcome lists and transfers that do not
return the Stopped error, the path is appended to exactly one of
`result.Success` and `result.Failed`. The only path left out is the one on
which `os.Stat` of the checkpoint file fails with an error other than
not-exist. -/
theorem uploadFile_records_one_outcome {Token : Type} (env : Env Token) (flags : Flags)
    (file : fileInfo) (s : State Token)
    (hmode : flags.fastUpload = true ∨ flags.upload = true ∨ flags.multipartUpload = true)
    (hstat : ∀ e, env.stat (saveFile env flags file) = .error e → e.notExist = true)
    (hkeep : env.keepsOutcomeLists)
    (hmulti : ∀ token path r e,
      (env.multipartUploadFile token path r).1 = some e → errorsIsStopUpload e = false)
    (hresume : ∀ path r e,
      (env.resumeUpload path r).1 = some e → errorsIsStopUpload e = false) :
    ∃ s1, uploadFile env flags file s = .ok s1 ∧
      ((s1.result.Success = s.result.Success ++ [file.Path] ∧
          s1.result.Failed = s.result.Failed) ∨
        (s1.result.Success = s.result.Success ∧
          s1.result.Failed = s.result.Failed ++ [file.Path])) := by
  obtain ⟨hkf, hko, hkm, hkr⟩ := hkeep
  by_cases hf : flags.fastUpload = true
  · simp only [uploadFile, uploadFileFast, callFastUploadFile, hf]
    cases hfast : (env.fastUploadFile file s.result).1.2 <;>
      simp [State.appendSuccess, State.appendFailed, State.logLine, (hkf _ _).1, (hkf _ _).2]
  · by_cases hu : flags.upload = true
    · simp only [uploadFile, uploadFileOss, callFastUploadFile, callOssUploadFile, hf, hu]
      cases hfast : (env.fastUploadFile file s.result).1.2 with
      | none => simp [State.appendSuccess, (hkf _ _).1, (hkf _ _).2]
      | some e1 =>
          cases hoss : (env.ossUploadFile (env.fastUploadFile file s.result).1.1 file.Path
              (env.fastUploadFile file s.result).2).1 <;>
            simp [hoss, State.appendSuccess, State.appendFailed, State.logLine, (hkf _ _).1,
              (hkf _ _).2, (hko _ _ _).1, (hko _ _ _).2]
    · have hm : flags.multipartUpload = true := by
        rcases hmode with h | h | h
        · exact absurd h hf
        · exact absurd h hu
        · exact h
      simp only [uploadFile, uploadFileMultipart, callFastUploadFile, callMultipartUploadFile,
        callResumeUpload, hf, hu, hm]
      cases hst : env.stat (saveFile env flags file) with
      | error e0 =>
          have hne := hstat e0 hst
          simp only [hne]
          cases hfast : (env.fastUploadFile file s.result).1.2 with
          | none => simp [State.appendSuccess, (hkf _ _).1, (hkf _ _).2]
          | some e1 =>
              cases hmu : (env.multipartUploadFile (env.fastUploadFile file s.result).1.1
                  file.Path (env.fastUploadFile file s.result).2).1 with
              | none =>
                  simp [hmu, State.appendSuccess, State.logLine, (hkf _ _).1, (hkf _ _).2,
                    (hkm _ _ _).1, (hkm _ _ _).2]
              | some e2 =>
                  have hns := hmulti _ _ _ e2 hmu
                  simp [hmu, hns, State.appendFailed, State.logLine, (hkf _ _).1, (hkf _ _).2,
                    (hkm _ _ _).1, (hkm _ _ _).2]
      | ok info =>
          by_cases hd : info.IsDir = true
          · simp [hd, State.appendFailed, State.logLine]
          · cases hre : (env.resumeUpload file.Path s.result).1 with
            | none =>
                simp [hd, hre, State.appendSuccess, State.logLine, (hkr _ _).1, (hkr _ _).2]
            | some e2 =>
                have hns := hresume _ _ e2 hre
                simp [hd, hre, hns, State.appendFailed, State.logLine, (hkr _ _).1,
                  (hkr _ _).2]

/-- The statement above at a concrete input: in mode `-u`, a dedup miss followed
by a failed plain upload puts the path in `result.Failed` only. -/
theorem uploadFile_records_one_outcome_example :
    ∃ s1, uploadFile
        (sampleEnv (.ok ⟨false⟩) (some (.other "not on server")) (some (.other "network")))
        uploadFlags bigIso emptyState = .ok s1 ∧
      ((s1.result.Success = [] ++ ["videos/big.iso"] ∧ s1.result.Failed = []) ∨
        (s1.result.Success = [] ∧ s1.result.Failed = [] ++ ["videos/big.iso"])) :=
  uploadFile_records_one_outcome
    (sampleEnv (.ok ⟨false⟩) (some (.other "not on server")) (some (.other "network")))
    uploadFlags bigIso emptyState (Or.inr (Or.inl rfl))
    (fun e h => by simp [sampleEnv, saveFile, uploadFlags, bigIso] at h)
    (sampleEnv_keepsOutcomeLists _ _ _)
    (fun _ _ _ e h => by
      have : e = .other "network" := by simpa [sampleEnv] using h.symm
      subst this; rfl)
    (fun _ _ e h => by
      have : e = .other "network" := by simpa [sampleEnv] using h.symm
      subst this; rfl)

/-- C3: in mode `-m`, when `os.Stat` of the checkpoint file of `videos/big.iso`
fails with an error for which `os.IsNotExist` is false, here a permission
error, the branch for an existing checkpoint calls `info.IsDir()` on the nil
file info: `uploadFile` panics after the `os.Stat` call, no upload function is
called, and the path is in neither `result.Success` nor `result.Failed`. -/
theorem uploadFile_panics_on_stat_error :
    uploadFile (sampleEnv (.error ⟨false, "permission denied"⟩) none none) multipartFlags
        bigIso emptyState =
      .error ⟨⟨[], [], []⟩, [Call.stat "save/big.iso.json"], []⟩ := by
  rfl

/-- The loop over the queue, run by the goroutine of `main` alone, goes on after
a stopped target: for the queue `videos/big.iso`, `next.bin`, the upload of the
first is stopped and `uploadFile` is then called for the second. Nothing in the
loop looks at how the previous upload ended; later targets are cut off only by
`os.Exit` in the goroutine of `handleQuit`. -/
theorem uploadFiles_continues_after_stop :
    ∃ s1, uploadFiles
        (sampleEnv (.error ⟨true, "no such file or directory"⟩) (some (.other "not on server"))
          (some .stopUpload)) multipartFlags [bigIso, ⟨"next.bin", 0⟩] emptyState = .ok s1 ∧
      s1.calls = [Call.stat "save/big.iso.json", Call.fastUploadFile bigIso,
        Call.multipartUploadFile "token of videos/big.iso" "videos/big.iso",
        Call.stat "save/next.bin.json", Call.fastUploadFile ⟨"next.bin", 0⟩,
        Call.multipartUploadFile "token of next.bin" "next.bin"] :=
  ⟨_, rfl, rfl⟩

end Fake115
